import Mathlib

/-!
Verification of the ConfigParserEnhanced resolution engine
(`src/configparserenhanced/ConfigParserEnhanced.py`).

The engine is shallowly embedded: Python strings are `String`, the
`configparser` data (the Section Provider) is an ordered association list of
sections, each an ordered association list of raw key/value pairs, and the
mutable `ConfigParserEnhancedDataSection` instance state is threaded
explicitly through every operation as a `ParsedState`.  Raised Python
exceptions are modelled by `PResult.err`; recursion is bounded by a fuel
parameter that is decremented exactly once per entry of the recursive
section walk `_parse_configuration_r`, so the fuel measures the recursion
depth of the include walk.  Running out of fuel is the distinguished result
`none`, separate from every behaviour of the program.
-/

set_option linter.unusedVariables false

namespace CPE

/-- Python exception classes that the engine raises. -/
inductive PyError where
  | keyError (msg : String)
  | valueError (msg : String)
  | typeError (msg : String)
deriving DecidableEq, Repr

/-- Result of a Python call: a normal return value or a raised exception. -/
inductive PResult (α : Type) where
  | ok (a : α)
  | err (e : PyError)
deriving DecidableEq, Repr

/-- A condition reported through the `ExceptionControl` mix-in
(severity label, exception class name, message). -/
structure ECEvent where
  severity : String
  exc : String
  message : String
deriving DecidableEq, Repr

/-- The mutable state of the `ConfigParserEnhancedDataSection` instance
(`self.configdata_parsed`): the resolved-data dictionary `self.data`, the
`self.sections_checked` set, plus instrumentation: the list of conditions
raised through exception control, a counter of Section Provider
consultations (`self.configdata[section_name]` lookups) and a counter of
handler invocations. -/
structure ParsedState where
  data : List (String × List (String × String))
  sections_checked : List String
  events : List ECEvent
  providerCalls : Nat
  handlerCalls : Nat
deriving DecidableEq, Repr

/-- The fresh state of a `ConfigParserEnhancedDataSection`. -/
def initState : ParsedState := ⟨[], [], [], 0, 0⟩

/-- The Section Provider: the raw configuration, an ordered list of sections,
each an ordered list of raw `(key, value)` string pairs (the data
`configparser` hands back). -/
structure Config where
  sections : List (String × List (String × String))
deriving DecidableEq, Repr

/-- Ordered-dictionary lookup (first binding of the key wins, as for a
Python `dict` whose keys are unique). -/
def lookupAssoc {α : Type} : List (String × α) → String → Option α
  | [], _ => none
  | (k', v) :: rest, k => if k' = k then some v else lookupAssoc rest k

/-- `key in d.keys()` on an ordered dictionary. -/
def hasKey {α : Type} (l : List (String × α)) (k : String) : Bool :=
  (lookupAssoc l k).isSome

/-- Python `d[k] = v` on an ordered dictionary: replace in place when the key
exists, append at the end otherwise. -/
def setAssoc {α : Type} : List (String × α) → String → α → List (String × α)
  | [], k, v => [(k, v)]
  | (k', v') :: rest, k, v =>
      if k' = k then (k, v) :: rest else (k', v') :: setAssoc rest k v

/-- Python `set.add`: sets are modelled as duplicate-free lists in insertion
order. -/
def addToSet (l : List String) (s : String) : List String :=
  if s ∈ l then l else l ++ [s]

/-- `Config` lookup: `self.configdata[section_name]`. -/
def Config.lookup (cfg : Config) (name : String) :
    Option (List (String × String)) :=
  lookupAssoc cfg.sections name

/-- Python `str.strip()` whitespace characters. -/
def isPySpace (c : Char) : Bool :=
  c = ' ' || c = '\t' || c = '\n' || c = '\x0d' || c = '\x0b' || c = '\x0c'

/-- Drop characters satisfying `p` from both ends of a character list. -/
def stripEnds (p : Char → Bool) (l : List Char) : List Char :=
  ((l.dropWhile p).reverse.dropWhile p).reverse

/-- Python `str.strip()`. -/
def pyStrip (s : String) : String := ⟨stripEnds isPySpace s.data⟩

/-- Python `str.strip(chr 34)`: remove all leading and trailing double-quote
characters. -/
def pyStripDQuote (s : String) : String := ⟨stripEnds (· = '"') s.data⟩

/-- The character class `[\w\d\-_]` of the operation-splitter regex
(ASCII: letters, digits, dash, underscore). -/
def isWordChar (c : Char) : Bool :=
  c.isAlpha || c.isDigit || c = '_' || c = '-'

/-- The character class `[\w\d\-_ ]` used inside a single-quoted operand. -/
def isQuotedOpChar (c : Char) : Bool := isWordChar c || c = ' '

/-- The capture groups of a successful match of `regex_op_splitter`
(group 1 = `op1`; group 3 = a single-quoted operand, unquoted;
group 4 = an unquoted operand). -/
structure RegexMatch where
  g1 : String
  g3 : Option String
  g4 : Option String
deriving DecidableEq, Repr

/-- `re.match` of the splitter regex
(pattern: caret, group1 of one or more word characters, an optional space,
then optionally either a single-quoted run of word-or-space characters
(group 3) or an unquoted run of word characters (group 4) followed by
discarded space-separated text) against a string, following Python's
backtracking order: group 1 takes the maximal word-character run at the
start; an optional literal space; the quoted alternative is tried first and
succeeds only when a quote immediately follows, the inner run is maximal and
immediately closed by a quote; otherwise the unquoted alternative takes the
maximal word-character run; if both fail the optional group matches empty.
The match fails only when group 1 is empty. -/
def regex_op_splitter_match (s : String) : Option RegexMatch :=
  let cs := s.data
  let w1 := cs.takeWhile isWordChar
  if w1.isEmpty then none
  else
    let rest1 := cs.drop w1.length
    let rest2 := if rest1.head? = some ' ' then rest1.tail else rest1
    match rest2 with
    | '\'' :: afterQ =>
        let r := afterQ.takeWhile isQuotedOpChar
        if r.length ≥ 1 ∧ (afterQ.drop r.length).head? = some '\'' then
          some ⟨⟨w1⟩, some ⟨r⟩, none⟩
        else
          some ⟨⟨w1⟩, none, none⟩
    | _ =>
        let w2 := rest2.takeWhile isWordChar
        if w2.isEmpty then some ⟨⟨w1⟩, none, none⟩
        else some ⟨⟨w1⟩, none, some ⟨w2⟩⟩

/-- The first whitespace-delimited token of a string
(`text.split()` index 0). -/
def pySplitFirst (text : String) : String :=
  ⟨(text.data.dropWhile isPySpace).takeWhile (fun c => ¬ isPySpace c)⟩

/-- `regex_op_matcher`: run the splitter regex and reject the match when the
captured group 1 differs from the first whitespace-delimited token of the
text (the sanity check of the source). -/
def regex_op_matcher (text : String) : Option RegexMatch :=
  match regex_op_splitter_match text with
  | none => none
  | some m => if m.g1 = pySplitFirst text then some m else none

/-- `get_op1_from_regex_match`: group 1, stripped, dashes replaced by
underscores. -/
def get_op1_from_regex_match (m : RegexMatch) : String :=
  ⟨(pyStrip m.g1).data.map (fun c => if c = '-' then '_' else c)⟩

/-- Python truthiness of an optional string (`None` and the empty string are
falsy). -/
def truthy (o : Option String) : Bool :=
  match o with
  | some s => s ≠ ""
  | none => false

/-- `get_op2_from_regex_match`: the quoted group 3 when truthy, else the
unquoted group 4 when truthy, else `None`; the winner is stripped. -/
def get_op2_from_regex_match (m : RegexMatch) : Option String :=
  if truthy m.g3 then some (pyStrip (m.g3.getD ""))
  else if truthy m.g4 then some (pyStrip (m.g4.getD ""))
  else none

/-- The outcome of one call into the engine: `none` models running out of
fuel (a recursion deeper than the fuel allows — never an actual behaviour of
the program); otherwise the state after the call's side effects together
with its return value or raised exception.  A raised exception does not roll
back side effects already performed, exactly as in Python. -/
abbrev PRes (α : Type) : Type := Option (ParsedState × PResult α)

/-- Sequencing of two engine steps, mirroring Python's straight-line
execution: fuel exhaustion and raised exceptions both cut the rest of the
computation short (an exception keeps the state reached so far). -/
def pbind {α β : Type} (x : PRes α) (f : ParsedState → α → PRes β) : PRes β :=
  match x with
  | none => none
  | some (st, .err e) => some (st, .err e)
  | some (st, .ok a) => f st a

/-- Modelled from the spec: the `ExceptionControl` mix-in is not among the
source files (only `ConfigParserEnhanced.py` and `Debuggable.py` are);
section 7 of the spec says warning-class conditions raised through
`exception_control_event` are policy-gated and, at the default posture, the
condition is recorded and resolution continues.  We model the default
posture: the condition is appended to the state's event list and execution
continues. -/
def exception_control_event (severity exc message : String)
    (st : ParsedState) : ParsedState :=
  { st with events := st.events ++ [⟨severity, exc, message⟩] }

/-- Sequencing under a `try`/`except KeyError: pass` block: a raised
`KeyError` is swallowed and execution continues from the state the failed
step left behind; every other exception propagates. -/
def pbindCatchKE {α β : Type} (x : PRes α) (f : ParsedState → PRes β) :
    PRes β :=
  match x with
  | none => none
  | some (st, .ok _) => f st
  | some (st, .err (.keyError _)) => f st
  | some (st, .err e) => some (st, .err e)

/-- `ConfigParserEnhancedDataSection.has_section`, parameterized by the
owner's `parse_owner_section`: when the section is not yet checked, parse it,
swallowing a raised `KeyError` (`except KeyError: pass`) but letting every
other exception propagate; then report whether the section is a key of
`self.data`.  The owner is always present in this model. -/
def has_section_g (parse_owner_section : String → ParsedState → PRes Unit)
    (st : ParsedState) (sect : String) : PRes Bool :=
  if sect ∈ st.sections_checked then
    some (st, .ok (hasKey st.data sect))
  else
    pbindCatchKE (parse_owner_section sect st) fun st1 =>
      some (st1, .ok (hasKey st1.data sect))

/-- `ConfigParserEnhancedDataSection.add_section`: directly add a new
section when `has_section` does not report it. -/
def add_section_g (parse_owner_section : String → ParsedState → PRes Unit)
    (st : ParsedState) (sect : String) : PRes Unit :=
  pbind (has_section_g parse_owner_section st sect) fun st1 b =>
    if b then some (st1, .ok ())
    else some ({ st1 with data := setAssoc st1.data sect [] }, .ok ())

/-- `ConfigParserEnhancedDataSection.set`: create the section implicitly if
absent, insert the option only when it is not already a key of the section's
dictionary, and return `self.data[section][option]` (raising `KeyError` on a
missing dictionary key, as Python indexing does). -/
def set_g (parse_owner_section : String → ParsedState → PRes Unit)
    (st : ParsedState) (sect opt value : String) : PRes String :=
  pbind (has_section_g parse_owner_section st sect) fun st1 b =>
    pbind (if b then some (st1, .ok ()) else
            add_section_g parse_owner_section st1 sect) fun st2 _ =>
      match lookupAssoc st2.data sect with
      | none => some (st2, .err (.keyError sect))
      | some opts =>
        if hasKey opts opt then
          match lookupAssoc opts opt with
          | some v0 => some (st2, .ok v0)
          | none => some (st2, .err (.keyError opt))
        else
          some ({ st2 with data := setAssoc st2.data sect (setAssoc opts opt value) },
                .ok value)

/-- Format a handler's return value the way `str.format` renders it in the
source's warning message (`None` for Python `None`). -/
def formatRval (rval : Option Int) : String :=
  match rval with
  | none => "None"
  | some n => toString n

/-- `_handler_generic`: record the raw entry verbatim into the accumulator
under the root section's name via `self.configdata_parsed.set`; the handler
falls off the end, returning Python `None`. -/
def handler_generic_g (parse_owner_section : String → ParsedState → PRes Unit)
    (section_root section_name op1 : String) (op2 : Option String)
    (entry : String × String) (st : ParsedState) : PRes (Option Int) :=
  pbind (set_g parse_owner_section
          { st with handlerCalls := st.handlerCalls + 1 }
          section_root entry.1 entry.2) fun st1 _ =>
    some (st1, .ok none)

/-- `_handler_use`: when `op2` is not a key of the in-flight
`processed_sections` dictionary (a `None` operand is never such a key),
recurse into the target with the same accumulator and the same root section;
otherwise report the cycle through `exception_control_event` with the
message built by the source (which interpolates `op1` and the current
section name) and continue.  Returns `0`. -/
def handler_use_g
    (parseR : Option String → List String → Option String → ParsedState →
      PRes Unit)
    (section_root section_name op1 : String) (op2 : Option String)
    (processed : List String) (st : ParsedState) : PRes (Option Int) :=
  let st0 := { st with handlerCalls := st.handlerCalls + 1 }
  let inProcessed : Bool :=
    match op2 with
    | some s => decide (s ∈ processed)
    | none => false
  if inProcessed = false then
    pbind (parseR op2 processed (some section_root) st0) fun st1 _ =>
      some (st1, .ok (some 0))
  else
    let message := "Detected a cycle in `use` dependencies in .ini file.\n" ++
      "- cannot load [" ++ op1 ++ "] from [" ++ section_name ++ "]."
    some (exception_control_event "WARNING" "ValueError" message st0,
          .ok (some 0))

/-- The return-value check performed after a named handler
(`if rval != 0: exception_control_event(...)`). -/
def rval_check (handler_name : String) (rval : Option Int)
    (st : ParsedState) : ParsedState :=
  if rval ≠ some 0 then
    exception_control_event "WARNING" "RuntimeError"
      ("Handler `" ++ handler_name ++ "` returned " ++ formatRval rval ++
       " but we expected 0") st
  else st

/-- The key/value loop of `_parse_configuration_r`: strip the raw key, strip
the raw value of whitespace and then of surrounding double quotes, tokenize
the key with `regex_op_matcher` (skipping the entry when there is no match),
extract `op1`/`op2`, and dispatch: `getattr` finds a named handler exactly
for `op1 = use` and `op1 = generic` (the only `_handler_` attributes of the
class); a named handler's non-zero return value raises a warning-class
condition through exception control; every other `op1` routes to the generic
handler without the return-value check.  A raised exception aborts the loop
and propagates. -/
def processItems_g
    (parseR : Option String → List String → Option String → ParsedState →
      PRes Unit)
    (parse_owner_section : String → ParsedState → PRes Unit)
    (section_root section_name : String) (processed : List String) :
    List (String × String) → ParsedState → PRes Unit
  | [], st => some (st, .ok ())
  | (k, v) :: rest, st =>
    let sec_k := pyStrip k
    let sec_v := pyStripDQuote (pyStrip v)
    match regex_op_matcher sec_k with
    | none =>
      processItems_g parseR parse_owner_section section_root section_name
        processed rest st
    | some m =>
      let op1 := get_op1_from_regex_match m
      let op2 := get_op2_from_regex_match m
      if op1 = "use" then
        pbind (handler_use_g parseR section_root section_name op1 op2
                processed st) fun st1 rval =>
          processItems_g parseR parse_owner_section section_root section_name
            processed rest (rval_check "_handler_use" rval st1)
      else if op1 = "generic" then
        pbind (handler_generic_g parse_owner_section section_root section_name
                op1 op2 (sec_k, sec_v) st) fun st1 rval =>
          processItems_g parseR parse_owner_section section_root section_name
            processed rest (rval_check "_handler_generic" rval st1)
      else
        pbind (handler_generic_g parse_owner_section section_root section_name
                op1 op2 (sec_k, sec_v) st) fun st1 _ =>
          processItems_g parseR parse_owner_section section_root section_name
            processed rest st1

/-- `parse_configuration`, parameterized by the recursive driver: reject an
empty section name with `ValueError` (the section argument is a string by
typing), then run `_parse_configuration_r` with `data`, in-flight set and
root all unset. -/
def parse_configuration_g
    (parseR : Option String → List String → Option String → ParsedState →
      PRes Unit)
    (sect : String) (st : ParsedState) : PRes Unit :=
  if sect = "" then some (st, .err (.valueError "`section` cannot be empty."))
  else parseR (some sect) [] none st

/-- `ConfigParserEnhancedDataSection.parse_owner_section`, parameterized by
the owner's `parse_configuration`: add the name to `sections_checked` and
run the owner's parser — the addition happens before the parse, so it
survives a raised exception. -/
def parse_owner_section_g (parseConfig : String → ParsedState → PRes Unit)
    (sect : String) (st : ParsedState) : PRes Unit :=
  parseConfig sect
    { st with sections_checked := addToSet st.sections_checked sect }

/-- `_parse_configuration_r`, the recursive driver of the parser.  The fuel
is decremented exactly once per entry, so it measures the nesting depth of
the section walk; `none` is returned only on fuel exhaustion.  A `None`
section name raises `TypeError`; when the root is unset this is the first
frame of a top-level call, so the section is recorded in `sections_checked`
and becomes the root.  The Section Provider is then consulted
(`self.configdata[section_name]`, raising `KeyError` with the source's
message for an unknown name), the section is added to the in-flight
`processed_sections` for the span of the frame (the in-flight dictionary is
passed by value, which coincides with the source's add-then-delete
discipline on its shared dictionary), and every raw entry is processed in
provider order. -/
def parse_configuration_r :
    Nat → Config → Option String → List String → Option String →
    ParsedState → PRes Unit
  | 0, _, _, _, _, _ => none
  | fuel + 1, cfg, sectionName?, processed, root?, st =>
    match sectionName? with
    | none => some (st, .err (.typeError "ERROR: a section name must not be None."))
    | some section_name =>
      let root := root?.getD section_name
      let st1 :=
        if root? = none then
          { st with sections_checked := addToSet st.sections_checked section_name }
        else st
      let st2 := { st1 with providerCalls := st1.providerCalls + 1 }
      match cfg.lookup section_name with
      | none =>
        some (st2, .err (.keyError ("ERROR: No section named `" ++ section_name ++
          "` was found in the configuration file.")))
      | some current_section =>
        let processed1 := addToSet processed section_name
        let parseR := fun n p r s => parse_configuration_r fuel cfg n p r s
        let parseOwner := fun sect s =>
          parse_owner_section_g (parse_configuration_g parseR) sect s
        pbind (processItems_g parseR parseOwner root section_name processed1
                current_section st2) fun st3 _ =>
          some (st3, .ok ())

/-- `ConfigParserEnhanced.parse_configuration`, the top-level parser entry
point, at a given fuel. -/
def parse_configuration (fuel : Nat) (cfg : Config) (sect : String)
    (st : ParsedState) : PRes Unit :=
  parse_configuration_g (fun n p r s => parse_configuration_r fuel cfg n p r s)
    sect st

/-- `ConfigParserEnhancedDataSection.parse_owner_section` at a given fuel. -/
def parse_owner_section (fuel : Nat) (cfg : Config) (sect : String)
    (st : ParsedState) : PRes Unit :=
  parse_owner_section_g (parse_configuration fuel cfg) sect st

/-- `ConfigParserEnhancedDataSection.has_section` at a given fuel. -/
def has_section (fuel : Nat) (cfg : Config) (st : ParsedState)
    (sect : String) : PRes Bool :=
  has_section_g (parse_owner_section fuel cfg) st sect

/-- `ConfigParserEnhancedDataSection.add_section` at a given fuel. -/
def add_section (fuel : Nat) (cfg : Config) (st : ParsedState)
    (sect : String) : PRes Unit :=
  add_section_g (parse_owner_section fuel cfg) st sect

/-- `ConfigParserEnhancedDataSection.set` at a given fuel. -/
def set (fuel : Nat) (cfg : Config) (st : ParsedState)
    (sect opt value : String) : PRes String :=
  set_g (parse_owner_section fuel cfg) st sect opt value

/-- `ConfigParserEnhancedDataSection.has_option`: parse the section when it
is not yet checked, letting every exception propagate (there is no
`try`/`except` here), then evaluate `option in self.data[section].keys()` —
the indexing raises `KeyError` when the section is absent from the data
dictionary. -/
def has_option (fuel : Nat) (cfg : Config) (st : ParsedState)
    (sect opt : String) : PRes Bool :=
  pbind (if sect ∈ st.sections_checked then some (st, .ok ()) else
          parse_owner_section fuel cfg sect st) fun st1 _ =>
    match lookupAssoc st1.data sect with
    | none => some (st1, .err (.keyError sect))
    | some opts => some (st1, .ok (hasKey opts opt))

/-- `ConfigParserEnhancedDataSection.get`: parse the section when it is not
yet checked (exceptions propagate), then go through `has_section` and
`has_option`; return the stored value, or raise the source's
missing-option / missing-section `KeyError`. -/
def get (fuel : Nat) (cfg : Config) (st : ParsedState)
    (sect opt : String) : PRes String :=
  pbind (if sect ∈ st.sections_checked then some (st, .ok ()) else
          parse_owner_section fuel cfg sect st) fun st1 _ =>
    pbind (has_section fuel cfg st1 sect) fun st2 b =>
      if b then
        pbind (has_option fuel cfg st2 sect opt) fun st3 bo =>
          if bo then
            match lookupAssoc st3.data sect with
            | none => some (st3, .err (.keyError sect))
            | some opts =>
              match lookupAssoc opts opt with
              | none => some (st3, .err (.keyError opt))
              | some v => some (st3, .ok v)
          else
            some (st3, .err (.keyError ("Missing section:option -> '" ++ sect ++
              "': '" ++ opt ++ "'")))
      else
        some (st2, .err (.keyError ("Missing section " ++ sect ++ ".")))

/-! ### Auxiliary lemmas about the dictionary and set primitives -/

theorem lookupAssoc_setAssoc_self {α : Type} (l : List (String × α))
    (k : String) (v : α) : lookupAssoc (setAssoc l k v) k = some v := by
  induction l with
  | nil => simp [setAssoc, lookupAssoc]
  | cons p rest ih =>
    obtain ⟨k', v'⟩ := p
    by_cases h : k' = k
    · simp [setAssoc, lookupAssoc, h]
    · simp [setAssoc, lookupAssoc, h, ih]

theorem lookupAssoc_mem {α : Type} (l : List (String × α)) (k : String)
    (v : α) (h : lookupAssoc l k = some v) : k ∈ l.map Prod.fst := by
  induction l with
  | nil => simp [lookupAssoc] at h
  | cons p rest ih =>
    obtain ⟨k', v'⟩ := p
    by_cases hk : k' = k
    · subst hk; simp
    · simp only [lookupAssoc, if_neg hk] at h
      simpa using Or.inr (ih h)

theorem mem_addToSet_self (l : List String) (s : String) : s ∈ addToSet l s := by
  by_cases h : s ∈ l <;> simp [addToSet, h]

theorem subset_addToSet (l : List String) (s : String) :
    l ⊆ addToSet l s := by
  intro x hx
  by_cases h : s ∈ l <;> simp [addToSet, h, hx]

theorem addToSet_of_mem (l : List String) (s : String) (h : s ∈ l) :
    addToSet l s = l := by
  simp [addToSet, h]

theorem addToSet_of_not_mem (l : List String) (s : String) (h : s ∉ l) :
    addToSet l s = l ++ [s] := by
  simp [addToSet, h]

/-! ### Monotonicity of `sections_checked`

Every operation of the engine only ever adds names to the
`sections_checked` set.  `Mono st x` says the computation `x`, started from
state `st`, can only grow the checked set; the property is proved for the
sequencing combinators once and then for each operation, and for the
recursive driver by induction on the fuel. -/

def Mono {α : Type} (st : ParsedState) (x : PRes α) : Prop :=
  ∀ st' r, x = some (st', r) → st.sections_checked ⊆ st'.sections_checked

theorem mono_some {α : Type} (st st0 : ParsedState) (r : PResult α)
    (h : st.sections_checked ⊆ st0.sections_checked) :
    Mono st (some (st0, r)) := by
  intro st' r' h'
  simp only [Option.some.injEq, Prod.mk.injEq] at h'
  obtain ⟨h1, _⟩ := h'
  subst h1
  exact h

theorem mono_none {α : Type} (st : ParsedState) :
    Mono st (none : PRes α) := by
  intro st' r h
  cases h

theorem mono_weaken {α : Type} (st st0 : ParsedState) (x : PRes α)
    (h : st.sections_checked ⊆ st0.sections_checked) (hx : Mono st0 x) :
    Mono st x := by
  intro st' r h'
  exact List.Subset.trans h (hx st' r h')

theorem mono_pbind {α β : Type} (st : ParsedState) (x : PRes α)
    (f : ParsedState → α → PRes β)
    (hx : Mono st x)
    (hf : ∀ st1 a, x = some (st1, .ok a) → Mono st1 (f st1 a)) :
    Mono st (pbind x f) := by
  cases x with
  | none => exact mono_none st
  | some p =>
    obtain ⟨st1, r1⟩ := p
    have hsub : st.sections_checked ⊆ st1.sections_checked := hx st1 r1 rfl
    cases r1 with
    | ok a =>
      intro st' r h
      exact List.Subset.trans hsub (hf st1 a rfl st' r (by simpa [pbind] using h))
    | err e =>
      intro st' r h
      simp only [pbind, Option.some.injEq, Prod.mk.injEq] at h
      obtain ⟨h1, _⟩ := h
      subst h1
      exact hsub

theorem mono_pbindCatchKE {α β : Type} (st : ParsedState) (x : PRes α)
    (f : ParsedState → PRes β)
    (hx : Mono st x)
    (hf : ∀ st1 r1, x = some (st1, r1) → Mono st1 (f st1)) :
    Mono st (pbindCatchKE x f) := by
  cases x with
  | none => exact mono_none st
  | some p =>
    obtain ⟨st1, r1⟩ := p
    have hsub : st.sections_checked ⊆ st1.sections_checked := hx st1 r1 rfl
    cases r1 with
    | ok a =>
      intro st' r h
      exact List.Subset.trans hsub (hf st1 _ rfl st' r (by simpa [pbindCatchKE] using h))
    | err e =>
      cases e with
      | keyError m =>
        intro st' r h
        exact List.Subset.trans hsub (hf st1 _ rfl st' r (by simpa [pbindCatchKE] using h))
      | valueError m =>
        intro st' r h
        simp only [pbindCatchKE, Option.some.injEq, Prod.mk.injEq] at h
        obtain ⟨h1, _⟩ := h
        subst h1
        exact hsub
      | typeError m =>
        intro st' r h
        simp only [pbindCatchKE, Option.some.injEq, Prod.mk.injEq] at h
        obtain ⟨h1, _⟩ := h
        subst h1
        exact hsub

theorem mono_has_section_g
    (po : String → ParsedState → PRes Unit)
    (hpo : ∀ sect st, Mono st (po sect st))
    (st : ParsedState) (sect : String) :
    Mono st (has_section_g po st sect) := by
  unfold has_section_g
  by_cases hm : sect ∈ st.sections_checked
  · rw [if_pos hm]
    exact mono_some _ _ _ (List.Subset.refl _)
  · rw [if_neg hm]
    exact mono_pbindCatchKE st _ _ (hpo sect st)
      (fun st1 r1 _ => mono_some _ _ _ (List.Subset.refl _))

theorem mono_add_section_g
    (po : String → ParsedState → PRes Unit)
    (hpo : ∀ sect st, Mono st (po sect st))
    (st : ParsedState) (sect : String) :
    Mono st (add_section_g po st sect) := by
  unfold add_section_g
  refine mono_pbind st _ _ (mono_has_section_g po hpo st sect) ?_
  intro st1 b _
  cases b <;> simp only [Bool.false_eq_true, if_false, if_true]
  · exact mono_some _ _ _ (List.Subset.refl _)
  · exact mono_some _ _ _ (List.Subset.refl _)

theorem mono_set_g
    (po : String → ParsedState → PRes Unit)
    (hpo : ∀ sect st, Mono st (po sect st))
    (st : ParsedState) (sect opt value : String) :
    Mono st (set_g po st sect opt value) := by
  unfold set_g
  refine mono_pbind st _ _ (mono_has_section_g po hpo st sect) ?_
  intro st1 b _
  refine mono_pbind st1 _ _ ?_ ?_
  · cases b
    · simp only [Bool.false_eq_true, if_false]
      exact mono_add_section_g po hpo st1 sect
    · simp only [if_true]
      exact mono_some _ _ _ (List.Subset.refl _)
  · intro st2 a _
    cases hl : lookupAssoc st2.data sect with
    | none => exact mono_some _ _ _ (List.Subset.refl _)
    | some opts =>
      dsimp only
      by_cases hk : hasKey opts opt
      · rw [if_pos hk]
        cases hlo : lookupAssoc opts opt with
        | none => exact mono_some _ _ _ (List.Subset.refl _)
        | some v0 => exact mono_some _ _ _ (List.Subset.refl _)
      · rw [if_neg hk]
        exact mono_some _ _ _ (List.Subset.refl _)

theorem mono_handler_generic_g
    (po : String → ParsedState → PRes Unit)
    (hpo : ∀ sect st, Mono st (po sect st))
    (section_root section_name op1 : String) (op2 : Option String)
    (entry : String × String) (st : ParsedState) :
    Mono st (handler_generic_g po section_root section_name op1 op2 entry st) := by
  unfold handler_generic_g
  refine mono_pbind st _ _ ?_ ?_
  · exact mono_weaken st _ _ (by simp)
      (mono_set_g po hpo _ section_root entry.1 entry.2)
  · intro st1 a _
    exact mono_some _ _ _ (List.Subset.refl _)

theorem mono_handler_use_g
    (parseR : Option String → List String → Option String → ParsedState →
      PRes Unit)
    (hpr : ∀ n p rt st, Mono st (parseR n p rt st))
    (section_root section_name op1 : String) (op2 : Option String)
    (processed : List String) (st : ParsedState) :
    Mono st (handler_use_g parseR section_root section_name op1 op2
      processed st) := by
  unfold handler_use_g
  by_cases hc : (match op2 with
      | some s => decide (s ∈ processed)
      | none => false) = false
  · rw [if_pos hc]
    refine mono_pbind st _ _ ?_ ?_
    · exact mono_weaken st _ _ (by simp) (hpr op2 processed (some section_root) _)
    · intro st1 a _
      exact mono_some _ _ _ (List.Subset.refl _)
  · rw [if_neg hc]
    exact mono_some _ _ _ (by simp [exception_control_event])

theorem checked_rval_check (handler_name : String) (rval : Option Int)
    (st : ParsedState) :
    (rval_check handler_name rval st).sections_checked = st.sections_checked := by
  unfold rval_check
  by_cases h : rval ≠ some 0
  · rw [if_pos h]; simp [exception_control_event]
  · rw [if_neg h]

theorem mono_processItems_g
    (parseR : Option String → List String → Option String → ParsedState →
      PRes Unit)
    (po : String → ParsedState → PRes Unit)
    (hpr : ∀ n p rt st, Mono st (parseR n p rt st))
    (hpo : ∀ sect st, Mono st (po sect st))
    (section_root section_name : String) (processed : List String) :
    ∀ (items : List (String × String)) (st : ParsedState),
      Mono st (processItems_g parseR po section_root section_name processed
        items st) := by
  intro items
  induction items with
  | nil =>
    intro st
    exact mono_some _ _ _ (List.Subset.refl _)
  | cons kv rest ih =>
    intro st
    obtain ⟨k, v⟩ := kv
    show Mono st (processItems_g parseR po section_root section_name processed
      ((k, v) :: rest) st)
    unfold processItems_g
    dsimp only
    cases hm : regex_op_matcher (pyStrip k) with
    | none => exact ih st
    | some m =>
      dsimp only
      by_cases h1 : get_op1_from_regex_match m = "use"
      · rw [if_pos h1]
        refine mono_pbind st _ _
          (mono_handler_use_g parseR hpr section_root section_name _ _
            processed st) ?_
        intro st1 rval _
        refine mono_weaken st1 _ _ ?_ (ih _)
        rw [checked_rval_check]
        exact List.Subset.refl _
      · rw [if_neg h1]
        by_cases h2 : get_op1_from_regex_match m = "generic"
        · rw [if_pos h2]
          refine mono_pbind st _ _
            (mono_handler_generic_g po hpo section_root section_name _ _ _ st) ?_
          intro st1 rval _
          refine mono_weaken st1 _ _ ?_ (ih _)
          rw [checked_rval_check]
          exact List.Subset.refl _
        · rw [if_neg h2]
          refine mono_pbind st _ _
            (mono_handler_generic_g po hpo section_root section_name _ _ _ st) ?_
          intro st1 rval _
          exact ih st1

theorem mono_parse_configuration_r :
    ∀ (fuel : Nat) (cfg : Config) (n : Option String) (p : List String)
      (rt : Option String) (st : ParsedState),
      Mono st (parse_configuration_r fuel cfg n p rt st) := by
  intro fuel
  induction fuel with
  | zero => intro cfg n p rt st; exact mono_none st
  | succ f ih =>
    intro cfg n p rt st
    cases n with
    | none =>
      exact mono_some _ _ _ (List.Subset.refl _)
    | some section_name =>
      show Mono st (parse_configuration_r (f + 1) cfg (some section_name) p rt st)
      unfold parse_configuration_r
      have hprNext : ∀ n1 p1 rt1 st1,
          Mono st1 (parse_configuration_r f cfg n1 p1 rt1 st1) :=
        fun n1 p1 rt1 st1 => ih cfg n1 p1 rt1 st1
      have hpoNext : ∀ sect st1,
          Mono st1 (parse_owner_section_g
            (parse_configuration_g
              (fun n1 p1 rt1 s1 => parse_configuration_r f cfg n1 p1 rt1 s1))
            sect st1) := by
        intro sect st1
        unfold parse_owner_section_g parse_configuration_g
        by_cases he : sect = ""
        · rw [if_pos he]
          exact mono_some _ _ _ (by exact subset_addToSet _ _)
        · rw [if_neg he]
          exact mono_weaken st1 _ _ (by exact subset_addToSet _ _)
            (hprNext (some sect) [] none _)
      cases hl : cfg.lookup section_name with
      | none =>
        cases rt with
        | none =>
          simp only [hl]
          exact mono_some _ _ _ (by simp; exact subset_addToSet _ _)
        | some rootName =>
          simp only [hl]
          exact mono_some _ _ _ (by simp)
      | some current_section =>
        simp only [hl]
        cases rt with
        | none =>
          refine mono_pbind st _ _ ?_ ?_
          · refine mono_weaken st _ _ ?_
              (mono_processItems_g _ _ hprNext hpoNext _ _ _ current_section _)
            simp only [if_pos rfl]
            exact subset_addToSet _ _
          · intro st3 a _
            exact mono_some _ _ _ (List.Subset.refl _)
        | some rootName =>
          refine mono_pbind st _ _ ?_ ?_
          · refine mono_weaken st _ _ ?_
              (mono_processItems_g _ _ hprNext hpoNext _ _ _ current_section _)
            simp
          · intro st3 a _
            exact mono_some _ _ _ (List.Subset.refl _)

theorem mono_parse_configuration
    (fuel : Nat) (cfg : Config) (sect : String) (st : ParsedState) :
    Mono st (parse_configuration fuel cfg sect st) := by
  unfold parse_configuration parse_configuration_g
  by_cases he : sect = ""
  · rw [if_pos he]
    exact mono_some _ _ _ (List.Subset.refl _)
  · rw [if_neg he]
    exact mono_parse_configuration_r fuel cfg (some sect) [] none st

theorem mono_parse_owner_section
    (fuel : Nat) (cfg : Config) (sect : String) (st : ParsedState) :
    Mono st (parse_owner_section fuel cfg sect st) := by
  unfold parse_owner_section parse_owner_section_g
  exact mono_weaken st _ _ (by exact subset_addToSet _ _)
    (mono_parse_configuration fuel cfg sect _)

theorem parse_owner_section_adds
    (fuel : Nat) (cfg : Config) (sect : String) (st st' : ParsedState)
    (r : PResult Unit)
    (h : parse_owner_section fuel cfg sect st = some (st', r)) :
    sect ∈ st'.sections_checked := by
  unfold parse_owner_section parse_owner_section_g at h
  have := mono_parse_configuration fuel cfg sect _ st' r h
  exact this (mem_addToSet_self _ _)

/-! ### Termination: enough fuel makes fuel exhaustion unreachable

The in-flight set gains the current section on entry and a `use` target is
re-entered only when it is not in-flight, so the walk can nest at most once
per distinct section name of the configuration.  `remainingCount` counts the
distinct section names not yet in-flight; it strictly decreases along the
recursion. -/

def sectionNames (cfg : Config) : List String :=
  (cfg.sections.map Prod.fst).dedup

/-- The `use`-directive targets a section's raw items produce, exactly as
the walk's tokenizer and dispatcher would see them: items that tokenize with
`op1 = use` and a present operand contribute that operand. -/
def useTargets (items : List (String × String)) : List String :=
  items.filterMap (fun kv =>
    match regex_op_matcher (pyStrip kv.1) with
    | some m =>
      if get_op1_from_regex_match m = "use" then get_op2_from_regex_match m
      else none
    | none => none)

/-- `R` is closed under the configuration's `use`-edges: every `use` target
of a section of `R` is again in `R`.  The least such set containing a root
is the set of sections reachable from that root. -/
def UseClosed (cfg : Config) (R : List String) : Prop :=
  ∀ s ∈ R, ∀ t ∈ useTargets ((cfg.lookup s).getD []), t ∈ R

instance decidableUseClosed (cfg : Config) (R : List String) :
    Decidable (UseClosed cfg R) := by
  unfold UseClosed
  infer_instance

/-- The distinct section names of the configuration lying in `R`. -/
def sectionNamesIn (cfg : Config) (R : List String) : List String :=
  (sectionNames cfg).filter (fun x => decide (x ∈ R))

/-- How many distinct section names of the configuration lie in `R` but are
not yet in-flight. -/
def remainingCountIn (cfg : Config) (R : List String)
    (processed : List String) : Nat :=
  ((sectionNamesIn cfg R).filter (fun x => decide (x ∉ processed))).length

theorem mem_sectionNames_of_lookup (cfg : Config) (n : String)
    (xs : List (String × String)) (h : cfg.lookup n = some xs) :
    n ∈ sectionNames cfg := by
  unfold sectionNames
  rw [List.mem_dedup]
  exact lookupAssoc_mem cfg.sections n xs h

theorem length_filter_notin_snoc (l : List String) (P : List String)
    (n : String) (hl : l.Nodup) (hn : n ∈ l) (hP : n ∉ P) :
    (l.filter (fun x => decide (x ∉ P ++ [n]))).length + 1
      = (l.filter (fun x => decide (x ∉ P))).length := by
  induction l with
  | nil => cases hn
  | cons a l' ih =>
    have hnd := List.nodup_cons.mp hl
    by_cases ha : a = n
    · subst ha
      have h1 : (decide (a ∉ P ++ [a])) = false := by simp
      have h2 : (decide (a ∉ P)) = true := by simpa using hP
      rw [List.filter_cons, List.filter_cons, h1, h2,
        if_neg (by decide : ¬ (false = true)), if_pos (rfl : true = true)]
      have hcong : l'.filter (fun x => decide (x ∉ P ++ [a]))
          = l'.filter (fun x => decide (x ∉ P)) := by
        apply List.filter_congr
        intro x hx
        have hxa : x ≠ a := fun hh => hnd.1 (hh ▸ hx)
        simp [List.mem_append, hxa]
      rw [hcong, List.length_cons]
    · have hn' : n ∈ l' := by
        cases List.mem_cons.mp hn with
        | inl hh => exact absurd hh.symm ha
        | inr hh => exact hh
      have heq : (decide (a ∉ P ++ [n])) = (decide (a ∉ P)) := by
        simp [List.mem_append, ha]
      rw [List.filter_cons, List.filter_cons, heq]
      by_cases hap : (decide (a ∉ P)) = true
      · rw [if_pos hap, if_pos hap]
        have := ih hnd.2 hn'
        simp only [List.length_cons]
        omega
      · rw [if_neg hap, if_neg hap]
        exact ih hnd.2 hn'

theorem mem_sectionNamesIn (cfg : Config) (R : List String) (n : String)
    (h1 : n ∈ sectionNames cfg) (h2 : n ∈ R) : n ∈ sectionNamesIn cfg R :=
  List.mem_filter.mpr ⟨h1, by simpa using h2⟩

theorem nodup_sectionNamesIn (cfg : Config) (R : List String) :
    (sectionNamesIn cfg R).Nodup :=
  (List.nodup_dedup _).filter _

theorem remainingCountIn_addToSet (cfg : Config) (R : List String)
    (processed : List String) (n : String)
    (hmem : n ∈ sectionNames cfg) (hR : n ∈ R) (hnot : n ∉ processed) :
    remainingCountIn cfg R (addToSet processed n) + 1
      = remainingCountIn cfg R processed := by
  unfold remainingCountIn
  rw [addToSet_of_not_mem processed n hnot]
  exact length_filter_notin_snoc (sectionNamesIn cfg R) processed n
    (nodup_sectionNamesIn cfg R) (mem_sectionNamesIn cfg R n hmem hR) hnot

theorem remainingCountIn_nil (cfg : Config) (R : List String) :
    remainingCountIn cfg R [] = (sectionNamesIn cfg R).length := by
  unfold remainingCountIn
  rw [List.filter_congr (fun x _ => by simp : ∀ x ∈ sectionNamesIn cfg R,
    (decide (x ∉ ([] : List String))) = true)]
  simp

theorem useTargets_cons_subset (k v : String)
    (rest : List (String × String)) :
    useTargets rest ⊆ useTargets ((k, v) :: rest) := by
  intro t ht
  unfold useTargets at ht ⊢
  rw [List.filterMap_cons]
  cases hf : (match regex_op_matcher (pyStrip k) with
      | some m =>
        if get_op1_from_regex_match m = "use" then get_op2_from_regex_match m
        else none
      | none => none) with
  | none => exact ht
  | some b => exact List.mem_cons_of_mem _ ht

theorem use_target_mem (k v : String) (rest : List (String × String))
    (m : RegexMatch) (s : String)
    (hm : regex_op_matcher (pyStrip k) = some m)
    (h1 : get_op1_from_regex_match m = "use")
    (h2 : get_op2_from_regex_match m = some s) :
    s ∈ useTargets ((k, v) :: rest) := by
  unfold useTargets
  rw [List.filterMap_cons]
  simp only [hm, h1, if_pos rfl, h2]
  exact List.mem_cons_self _ _

theorem pbind_ne_none {α β : Type} (x : PRes α) (f : ParsedState → α → PRes β)
    (hx : x ≠ none)
    (hf : ∀ st1 a, x = some (st1, .ok a) → f st1 a ≠ none) :
    pbind x f ≠ none := by
  cases x with
  | none => exact absurd rfl hx
  | some p =>
    obtain ⟨st1, r1⟩ := p
    cases r1 with
    | ok a => simpa [pbind] using hf st1 a rfl
    | err e => simp [pbind]

theorem hasKey_exists {α : Type} (l : List (String × α)) (k : String)
    (h : hasKey l k = true) : ∃ v, lookupAssoc l k = some v := by
  unfold hasKey at h
  cases hl : lookupAssoc l k with
  | none => rw [hl] at h; cases h
  | some v => exact ⟨v, rfl⟩

theorem has_section_g_checked (po : String → ParsedState → PRes Unit)
    (st : ParsedState) (sect : String) (h : sect ∈ st.sections_checked) :
    has_section_g po st sect = some (st, .ok (hasKey st.data sect)) := by
  unfold has_section_g
  rw [if_pos h]

theorem add_section_g_total (po : String → ParsedState → PRes Unit)
    (st : ParsedState) (sect : String) (h : sect ∈ st.sections_checked) :
    ∃ st2, add_section_g po st sect = some (st2, .ok ())
      ∧ st2.sections_checked = st.sections_checked
      ∧ hasKey st2.data sect = true := by
  unfold add_section_g
  rw [has_section_g_checked po st sect h]
  by_cases hk : hasKey st.data sect
  · exact ⟨st, by simp [pbind, hk], rfl, hk⟩
  · refine ⟨{ st with data := setAssoc st.data sect [] }, ?_, rfl, ?_⟩
    · simp [pbind, hk]
    · simp [hasKey, lookupAssoc_setAssoc_self]

theorem set_g_total (po : String → ParsedState → PRes Unit)
    (st : ParsedState) (sect opt value : String)
    (h : sect ∈ st.sections_checked) :
    ∃ st2 res, set_g po st sect opt value = some (st2, .ok res)
      ∧ st2.sections_checked = st.sections_checked := by
  unfold set_g
  rw [has_section_g_checked po st sect h]
  by_cases hk : hasKey st.data sect
  · obtain ⟨opts, hopts⟩ := hasKey_exists st.data sect hk
    by_cases hko : hasKey opts opt
    · obtain ⟨v0, hv0⟩ := hasKey_exists opts opt hko
      exact ⟨st, v0, by simp [pbind, hk, hopts, hko, hv0], rfl⟩
    · refine ⟨{ st with data := setAssoc st.data sect (setAssoc opts opt value) },
        value, ?_, rfl⟩
      simp [pbind, hk, hopts, hko]
  · obtain ⟨st2, hadd, hchk, hkey⟩ := add_section_g_total po st sect h
    obtain ⟨opts, hopts⟩ := hasKey_exists st2.data sect hkey
    by_cases hko : hasKey opts opt
    · obtain ⟨v0, hv0⟩ := hasKey_exists opts opt hko
      exact ⟨st2, v0, by simp [pbind, hk, hadd, hopts, hko, hv0], hchk⟩
    · refine ⟨{ st2 with data := setAssoc st2.data sect (setAssoc opts opt value) },
        value, ?_, hchk⟩
      simp [pbind, hk, hadd, hopts, hko]

theorem handler_generic_g_total (po : String → ParsedState → PRes Unit)
    (section_root section_name op1 : String) (op2 : Option String)
    (entry : String × String) (st : ParsedState)
    (h : section_root ∈ st.sections_checked) :
    ∃ st2, handler_generic_g po section_root section_name op1 op2 entry st
        = some (st2, .ok none)
      ∧ st2.sections_checked = st.sections_checked := by
  unfold handler_generic_g
  obtain ⟨st2, res, hset, hchk⟩ := set_g_total po
    { st with handlerCalls := st.handlerCalls + 1 } section_root entry.1 entry.2 h
  exact ⟨st2, by simp [pbind, hset], hchk⟩

theorem handler_use_g_ne_none
    (parseR : Option String → List String → Option String → ParsedState →
      PRes Unit)
    (section_root section_name op1 : String) (op2 : Option String)
    (processed R : List String) (st : ParsedState)
    (hroot : section_root ∈ st.sections_checked)
    (hop2R : ∀ s, op2 = some s → s ∈ R)
    (htot : ∀ n1 st1, section_root ∈ st1.sections_checked →
      (∀ s, n1 = some s → s ∉ processed ∧ s ∈ R) →
      parseR n1 processed (some section_root) st1 ≠ none) :
    handler_use_g parseR section_root section_name op1 op2 processed st
      ≠ none := by
  unfold handler_use_g
  dsimp only
  cases op2 with
  | none =>
    rw [if_pos rfl]
    apply pbind_ne_none
    · exact htot none _ hroot (fun s hs => by cases hs)
    · intro st1 a _
      simp
  | some s =>
    by_cases hs : s ∈ processed
    · rw [if_neg (by simpa using hs)]
      simp
    · rw [if_pos (by simpa using hs)]
      apply pbind_ne_none
      · refine htot (some s) _ (by exact hroot) ?_
        intro s' hs'
        injection hs' with hss
        subst hss
        exact ⟨hs, hop2R _ rfl⟩
      · intro st1 a _
        simp

theorem processItems_ne_none
    (parseR : Option String → List String → Option String → ParsedState →
      PRes Unit)
    (po : String → ParsedState → PRes Unit)
    (hpr : ∀ n p rt st, Mono st (parseR n p rt st))
    (section_root section_name : String) (processed R : List String)
    (htot : ∀ n1 st1, section_root ∈ st1.sections_checked →
      (∀ s, n1 = some s → s ∉ processed ∧ s ∈ R) →
      parseR n1 processed (some section_root) st1 ≠ none) :
    ∀ (items : List (String × String)) (st : ParsedState),
      (∀ t ∈ useTargets items, t ∈ R) →
      section_root ∈ st.sections_checked →
      processItems_g parseR po section_root section_name processed items st
        ≠ none := by
  intro items
  induction items with
  | nil => intro st hT hroot; simp [processItems_g]
  | cons kv rest ih =>
    intro st hT hroot
    obtain ⟨k, v⟩ := kv
    have hTrest : ∀ t ∈ useTargets rest, t ∈ R :=
      fun t ht => hT t (useTargets_cons_subset k v rest ht)
    show processItems_g parseR po section_root section_name processed
      ((k, v) :: rest) st ≠ none
    unfold processItems_g
    dsimp only
    cases hm : regex_op_matcher (pyStrip k) with
    | none => exact ih st hTrest hroot
    | some m =>
      dsimp only
      by_cases h1 : get_op1_from_regex_match m = "use"
      · rw [if_pos h1]
        apply pbind_ne_none
        · exact handler_use_g_ne_none parseR section_root section_name _ _
            processed R st hroot
            (fun s hs => hT s (use_target_mem k v rest m s hm h1 hs)) htot
        · intro st1 rval hu
          have hroot1 : section_root ∈ st1.sections_checked :=
            mono_handler_use_g parseR hpr section_root section_name _ _
              processed st st1 _ hu hroot
          refine ih _ hTrest ?_
          rw [checked_rval_check]
          exact hroot1
      · rw [if_neg h1]
        by_cases h2 : get_op1_from_regex_match m = "generic"
        · rw [if_pos h2]
          apply pbind_ne_none
          · obtain ⟨st2, hg, _⟩ := handler_generic_g_total po section_root
              section_name _ _ (pyStrip k, pyStripDQuote (pyStrip v)) st hroot
            rw [hg]
            simp
          · intro st1 rval hg
            obtain ⟨st2, hg2, hchk⟩ := handler_generic_g_total po section_root
              section_name _ _ (pyStrip k, pyStripDQuote (pyStrip v)) st hroot
            rw [hg2] at hg
            simp only [Option.some.injEq, Prod.mk.injEq] at hg
            obtain ⟨he1, _⟩ := hg
            subst he1
            refine ih _ hTrest ?_
            rw [checked_rval_check, hchk]
            exact hroot
        · rw [if_neg h2]
          apply pbind_ne_none
          · obtain ⟨st2, hg, _⟩ := handler_generic_g_total po section_root
              section_name _ _ (pyStrip k, pyStripDQuote (pyStrip v)) st hroot
            rw [hg]
            simp
          · intro st1 rval hg
            obtain ⟨st2, hg2, hchk⟩ := handler_generic_g_total po section_root
              section_name _ _ (pyStrip k, pyStripDQuote (pyStrip v)) st hroot
            rw [hg2] at hg
            simp only [Option.some.injEq, Prod.mk.injEq] at hg
            obtain ⟨he1, _⟩ := hg
            subst he1
            refine ih _ hTrest ?_
            rw [hchk]
            exact hroot

theorem parse_configuration_r_ne_none :
    ∀ (fuel : Nat) (cfg : Config) (R : List String) (n? : Option String)
      (processed : List String) (rt : Option String) (st : ParsedState),
      UseClosed cfg R →
      remainingCountIn cfg R processed + 1 ≤ fuel →
      (∀ n, n? = some n → n ∉ processed ∧ n ∈ R) →
      (∀ r, rt = some r → r ∈ st.sections_checked) →
      parse_configuration_r fuel cfg n? processed rt st ≠ none := by
  intro fuel
  induction fuel with
  | zero =>
    intro cfg R n? processed rt st _ hA _ _
    exact absurd hA (Nat.not_succ_le_zero _)
  | succ f ih =>
    intro cfg R n? processed rt st hcl hA hB hC
    cases n? with
    | none => simp [parse_configuration_r]
    | some n =>
      unfold parse_configuration_r
      dsimp only
      cases hl : cfg.lookup n with
      | none => simp
      | some current_section =>
        have hmem : n ∈ sectionNames cfg :=
          mem_sectionNames_of_lookup cfg n current_section hl
        obtain ⟨hnot, hnR⟩ := hB n rfl
        have hdec := remainingCountIn_addToSet cfg R processed n hmem hnR hnot
        have hT : ∀ t ∈ useTargets current_section, t ∈ R := by
          have := hcl n hnR
          rw [hl] at this
          simpa using this
        have htot : ∀ n1 st1, rt.getD n ∈ st1.sections_checked →
            (∀ s, n1 = some s → s ∉ addToSet processed n ∧ s ∈ R) →
            parse_configuration_r f cfg n1 (addToSet processed n)
              (some (rt.getD n)) st1 ≠ none := by
          intro n1 st1 hrootst1 hguard
          apply ih cfg R n1 (addToSet processed n) (some (rt.getD n)) st1 hcl
          · omega
          · exact hguard
          · intro r hr
            injection hr with hr'
            subst hr'
            exact hrootst1
        apply pbind_ne_none
        · apply processItems_ne_none _ _
            (fun n1 p1 rt1 s1 => mono_parse_configuration_r f cfg n1 p1 rt1 s1)
            _ _ _ R htot current_section _ hT ?_
          cases rt with
          | none => simpa using mem_addToSet_self st.sections_checked n
          | some r => simpa using hC r rfl
        · intro st3 a _
          simp

/-! ### Further inversion and computation lemmas used by the claims -/

theorem has_section_ok_inv (fuel : Nat) (cfg : Config) (st : ParsedState)
    (sect : String) (st1 : ParsedState) (b : Bool)
    (h : has_section fuel cfg st sect = some (st1, .ok b)) :
    sect ∈ st1.sections_checked ∧ b = hasKey st1.data sect := by
  unfold has_section has_section_g at h
  by_cases hm : sect ∈ st.sections_checked
  · rw [if_pos hm] at h
    simp only [Option.some.injEq, Prod.mk.injEq, PResult.ok.injEq] at h
    obtain ⟨h1, h2⟩ := h
    subst h1
    exact ⟨hm, h2.symm⟩
  · rw [if_neg hm] at h
    cases hpo : parse_owner_section fuel cfg sect st with
    | none => rw [hpo] at h; cases h
    | some p =>
      obtain ⟨st2, r2⟩ := p
      rw [hpo] at h
      have hadds := parse_owner_section_adds fuel cfg sect st st2 r2 hpo
      cases r2 with
      | ok a =>
        simp only [pbindCatchKE, Option.some.injEq, Prod.mk.injEq,
          PResult.ok.injEq] at h
        obtain ⟨h1, h2⟩ := h
        subst h1
        exact ⟨hadds, h2.symm⟩
      | err e =>
        cases e with
        | keyError m =>
          simp only [pbindCatchKE, Option.some.injEq, Prod.mk.injEq,
            PResult.ok.injEq] at h
          obtain ⟨h1, h2⟩ := h
          subst h1
          exact ⟨hadds, h2.symm⟩
        | valueError m => simp [pbindCatchKE] at h
        | typeError m => simp [pbindCatchKE] at h

theorem parse_owner_section_missing (fuel : Nat) (cfg : Config)
    (st : ParsedState) (sect : String)
    (h0 : 1 ≤ fuel) (h1 : sect ≠ "") (h2 : cfg.lookup sect = none) :
    parse_owner_section fuel cfg sect st
      = some ({ st with
                sections_checked := addToSet st.sections_checked sect,
                providerCalls := st.providerCalls + 1 },
              .err (.keyError ("ERROR: No section named `" ++ sect ++
                "` was found in the configuration file."))) := by
  obtain ⟨f, rfl⟩ : ∃ f, fuel = f + 1 := ⟨fuel - 1, by omega⟩
  unfold parse_owner_section parse_owner_section_g parse_configuration
    parse_configuration_g
  rw [if_neg h1]
  unfold parse_configuration_r
  dsimp only
  rw [if_pos (rfl : (none : Option String) = none)]
  rw [addToSet_of_mem _ _ (mem_addToSet_self _ _)]
  rw [h2]

/-! ### Concrete configurations used by counterexamples and witnesses -/

/-- Section `A` sets `k = 1` and then includes `B`, which sets `k = 2`. -/
def cfg_c1 : Config := ⟨[("A", [("k", "1"), ("use B", "None")]),
                         ("B", [("k", "2")])]⟩

/-- A two-section `use` cycle with ordinary keys before each `use`. -/
def cfg_c2 : Config := ⟨[("A", [("k1", "v1"), ("use B", "None")]),
                         ("B", [("k2", "v2"), ("use A", "None")])]⟩

/-- Section `A` holds a bare `use` key (no operand) followed by another key. -/
def cfg_c5 : Config := ⟨[("A", [("use", "None"), ("k", "v")])]⟩

/-- A two-section `use` cycle. -/
def cfg_c6 : Config := ⟨[("A", [("use B", "None")]),
                         ("B", [("use A", "None")])]⟩

/-- Section `A` includes `B`, whose raw value carries spaces and quotes. -/
def cfg_c7 : Config := ⟨[("A", [("use B", "None")]),
                         ("B", [("mykey", " \"v\" ")])]⟩

/-- A configuration with one ordinary section. -/
def cfg_c8 : Config := ⟨[("A", [("k", "v")])]⟩

/-- Section `A` holds a key with a discarded disambiguation suffix. -/
def cfg_c9 : Config :=
  ⟨[("A", [("envvar-prepend PATH extra-suffix", "val"), ("k2", "v2")])]⟩

/-- A configuration with one ordinary section. -/
def cfg_c10 : Config := ⟨[("A", [("k", "v")])]⟩

/-! ### The claims -/

/-- C1, counterexample: in `cfg_c1`, two directives target the key `k` — the
root section `A` stores `1` and the later-processed included section `B`
stores `2` — yet the final merged value for `k` is `1`, the value of the
first directive, not the last.  Last-write-wins fails on the code. -/
theorem C1_counterexample :
    CPE.get 20 cfg_c1 initState "A" "k"
      = some (⟨[("A", [("k", "1")])], ["A"], [], 2, 3⟩, .ok "1")
    ∧ lookupAssoc ((cfg_c1.lookup "B").getD []) "k" = some "2"
    ∧ ("1" : String) ≠ "2" :=
  ⟨by decide, by decide, by decide⟩

/-- C1, amended: the first write for a given key wins.  Once a key holds a
value in the accumulator, a later `set` with the same destination key
returns the stored value and leaves the whole state unchanged
(`ConfigParserEnhancedDataSection.set` inserts only when the key is
absent). -/
theorem C1_first_write_wins (fuel : Nat) (cfg : Config) (st : ParsedState)
    (sect opt value v0 : String) (opts : List (String × String))
    (h1 : sect ∈ st.sections_checked)
    (h2 : lookupAssoc st.data sect = some opts)
    (h3 : lookupAssoc opts opt = some v0) :
    CPE.set fuel cfg st sect opt value = some (st, .ok v0) := by
  unfold CPE.set set_g
  rw [has_section_g_checked _ st sect h1]
  dsimp only [pbind]
  have hkey : hasKey st.data sect = true := by simp [hasKey, h2]
  rw [if_pos hkey]
  dsimp only [pbind]
  rw [h2]
  dsimp only
  have hko : hasKey opts opt = true := by simp [hasKey, h3]
  rw [if_pos hko, h3]

/-- C1, witness for the amended theorem at a concrete state. -/
theorem C1_witness :
    CPE.set 3 (⟨[]⟩ : Config) ⟨[("A", [("k", "1")])], ["A"], [], 0, 0⟩
        "A" "k" "2"
      = some (⟨[("A", [("k", "1")])], ["A"], [], 0, 0⟩, .ok "1") :=
  C1_first_write_wins 3 ⟨[]⟩ _ "A" "k" "2" "1" [("k", "1")]
    (by decide) (by decide) (by decide)

/-- C2: resolving the cycle `A -use-> B -use-> A` raises exactly one
warning-class condition and still returns every directive processed before
the cycle was hit (both `k1` from `A` and `k2` from `B` are in the merged
result).  However the condition's message interpolates `op1` — the literal
string `use` — instead of the destination section: it reads
`cannot load [use] from [B]` and never names the target section `A`, so the
message does not name the destination of the offending edge. -/
theorem C2_cycle_eval :
    parse_configuration 10 cfg_c2 "A" initState
      = some (⟨[("A", [("k1", "v1"), ("k2", "v2")])], ["A"],
              [⟨"WARNING", "ValueError",
                "Detected a cycle in `use` dependencies in .ini file.\n- cannot load [use] from [B]."⟩],
              2, 4⟩, .ok ()) := by
  decide

/-- C3: a second `has_section` query for the same name returns the identical
result and the identical state — in particular the Section Provider
consultation counter and the handler invocation counter are unchanged, so
the second query performs no walk, invokes no handler and does not consult
the provider; it is a pure cache lookup. -/
theorem C3_resolve_idempotent (fuel : Nat) (cfg : Config) (st : ParsedState)
    (sect : String) (st1 : ParsedState) (b : Bool)
    (h : has_section fuel cfg st sect = some (st1, .ok b)) :
    has_section fuel cfg st1 sect = some (st1, .ok b) := by
  obtain ⟨hmem, hb⟩ := has_section_ok_inv fuel cfg st sect st1 b h
  unfold has_section
  rw [has_section_g_checked _ st1 sect hmem, hb]

/-- C3, witness: the first query resolves section `A` (one provider
consultation, one handler call); the second returns the same answer from the
unchanged state. -/
theorem C3_witness :
    has_section 3 (⟨[("A", [("k", "v")])]⟩ : Config) initState "A"
      = some (⟨[("A", [("k", "v")])], ["A"], [], 1, 1⟩, .ok true)
    ∧ has_section 3 (⟨[("A", [("k", "v")])]⟩ : Config)
        ⟨[("A", [("k", "v")])], ["A"], [], 1, 1⟩ "A"
      = some (⟨[("A", [("k", "v")])], ["A"], [], 1, 1⟩, .ok true) :=
  ⟨by decide,
   C3_resolve_idempotent 3 _ initState "A" _ true (by decide)⟩

/-- C4, counterexample: tokenizing the raw key
`envvar-prepend PATH (quote A quote)` yields `op2 = PATH`, not `op2 = A`:
the unquoted token immediately after `op1` is the operand and the quoted
trailing text is discarded as a disambiguation suffix. -/
theorem C4_counterexample :
    ((regex_op_matcher "envvar-prepend PATH 'A'").map
      (fun m => (get_op1_from_regex_match m, get_op2_from_regex_match m)))
      = some ("envvar_prepend", some "PATH")
    ∧ ((regex_op_matcher "envvar-prepend PATH 'A'").map
      (fun m => (get_op1_from_regex_match m, get_op2_from_regex_match m)))
      ≠ some ("envvar_prepend", some "A") :=
  ⟨by decide, by decide⟩

/-- C4, amended: a quoted operand takes precedence only when it stands
immediately after `op1`; on `envvar-prepend PATH (quote A quote)` the
operand is the unquoted `PATH` and the quoted text is a discarded suffix,
while on `envvar-prepend (quote A quote)` the operand is the quoted `A`. -/
theorem C4_quoted_operand :
    ((regex_op_matcher "envvar-prepend PATH 'A'").map
      (fun m => (get_op1_from_regex_match m, get_op2_from_regex_match m)))
      = some ("envvar_prepend", some "PATH")
    ∧ ((regex_op_matcher "envvar-prepend 'A'").map
      (fun m => (get_op1_from_regex_match m, get_op2_from_regex_match m)))
      = some ("envvar_prepend", some "A") :=
  ⟨by decide, by decide⟩

/-- C5: dispatching the directive of the bare key `use` (operand absent,
`op2 = None`) makes `_handler_use` recurse with a `None` section name, which
raises an unrecoverable `TypeError`; resolution aborts and the following key
`k` of the section is never processed (the accumulator stays empty).  This
contradicts the contract that every handler accepts `op2 = None`, and the
handler's own docstring, which says it raises nothing. -/
theorem C5_use_none_operand_eval :
    parse_configuration 10 cfg_c5 "A" initState
      = some (⟨[], ["A"], [], 1, 1⟩,
              .err (.typeError "ERROR: a section name must not be None.")) := by
  decide

/-- C6: the fuel of the embedding is consumed exactly once per entry of the
recursive section walk, so it measures the walk's nesting depth.  For every
set `R` of section names that contains the requested root and is closed
under the configuration's `use`-edges — in particular the set of sections
reachable from the root, which is the least such set — fuel exceeding the
number of distinct section names in `R` is never exhausted: a top-level
resolution call terminates, for every configuration (cyclic include graphs
included) and every starting state, because a section already in the
in-flight set is never re-entered. -/
theorem C6_resolution_terminates (cfg : Config) (sect : String)
    (st : ParsedState) (fuel : Nat) (R : List String)
    (hcl : UseClosed cfg R) (hroot : sect ∈ R)
    (h : (sectionNamesIn cfg R).length + 1 ≤ fuel) :
    parse_configuration fuel cfg sect st ≠ none := by
  unfold parse_configuration parse_configuration_g
  by_cases he : sect = ""
  · rw [if_pos he]; simp
  · rw [if_neg he]
    apply parse_configuration_r_ne_none fuel cfg R (some sect) [] none st hcl
    · rw [remainingCountIn_nil]; exact h
    · intro n hn
      injection hn with hn'
      subst hn'
      exact ⟨by simp, hroot⟩
    · intro r hr; cases hr

/-- C6, witness: the two-section cycle `A -use-> B -use-> A` has the
reachable, `use`-closed set `A, B`, and resolving `A` within fuel 3 never
runs out. -/
theorem C6_witness :
    UseClosed cfg_c6 ["A", "B"]
    ∧ "A" ∈ ["A", "B"]
    ∧ (sectionNamesIn cfg_c6 ["A", "B"]).length + 1 ≤ 3
    ∧ parse_configuration 3 cfg_c6 "A" initState ≠ none :=
  ⟨by decide, by decide, by decide,
   C6_resolution_terminates cfg_c6 "A" initState 3 ["A", "B"]
     (by decide) (by decide) (by decide)⟩

/-- C7, counterexample: the generic handler does store the pair under the
root section's namespace (key `mykey` of nested section `B` lands under `A`,
and `B` gets no namespace of its own), but the stored value is not the raw
value supplied by the Section Provider: the raw value with surrounding
whitespace and double quotes is stored stripped of both. -/
theorem C7_counterexample :
    parse_configuration 10 cfg_c7 "A" initState
      = some (⟨[("A", [("mykey", "v")])], ["A"], [], 2, 2⟩, .ok ())
    ∧ lookupAssoc ((cfg_c7.lookup "B").getD []) "mykey" = some " \"v\" "
    ∧ (" \"v\" " : String) ≠ "v"
    ∧ lookupAssoc [("A", [("mykey", "v")])] "B" = none :=
  ⟨by decide, by decide, by decide, by decide⟩

/-- C7, amended: for an entry whose destination key is not yet present, the
generic handler appends the entry pair it receives — the whitespace-stripped
key and the whitespace-then-double-quote-stripped value, as prepared by the
section walk — under the root section's name (the nested section name
parameter is ignored), and the stored key maps to exactly the handed-over
value. -/
theorem C7_generic_writes_root
    (po : String → ParsedState → PRes Unit)
    (section_root section_name op1 : String) (op2 : Option String)
    (k v : String) (st : ParsedState) (opts : List (String × String))
    (h1 : section_root ∈ st.sections_checked)
    (h2 : lookupAssoc st.data section_root = some opts)
    (h3 : lookupAssoc opts k = none) :
    handler_generic_g po section_root section_name op1 op2 (k, v) st
      = some ({ st with
                data := setAssoc st.data section_root (setAssoc opts k v),
                handlerCalls := st.handlerCalls + 1 }, .ok none)
    ∧ lookupAssoc (setAssoc st.data section_root (setAssoc opts k v))
        section_root = some (setAssoc opts k v)
    ∧ lookupAssoc (setAssoc opts k v) k = some v := by
  refine ⟨?_, lookupAssoc_setAssoc_self _ _ _, lookupAssoc_setAssoc_self _ _ _⟩
  unfold handler_generic_g set_g
  rw [has_section_g_checked _ _ section_root (by exact h1)]
  dsimp only [pbind]
  have hkey : hasKey st.data section_root = true := by simp [hasKey, h2]
  rw [if_pos (by exact hkey)]
  dsimp only [pbind]
  rw [h2]
  dsimp only
  have hko : hasKey opts k = false := by simp [hasKey, h3]
  rw [hko, if_neg (by decide : ¬ (false = true))]

/-- C7, witness for the amended theorem at a concrete state. -/
theorem C7_witness :
    handler_generic_g (fun _ _ => none) "R" "B" "mykey" none ("mykey", "v")
        ⟨[("R", [])], ["R"], [], 0, 0⟩
      = some (⟨[("R", [("mykey", "v")])], ["R"], [], 0, 1⟩, .ok none)
    ∧ lookupAssoc [("R", [("mykey", "v")])] "R" = some [("mykey", "v")]
    ∧ lookupAssoc [("mykey", "v")] "mykey" = some "v" :=
  C7_generic_writes_root (fun _ _ => none) "R" "B" "mykey" none "mykey" "v"
    ⟨[("R", [])], ["R"], [], 0, 0⟩ [] (by decide) (by decide) (by decide)

/-- C8, counterexample: the empty string is a section name absent from the
Section Provider, yet `has_section` on it does not return false — the
resolver's usage check raises `ValueError`, which `has_section`'s
`except KeyError` does not swallow, so a failure propagates. -/
theorem C8_counterexample :
    has_section 5 cfg_c8 initState ""
      = some (⟨[], [""], [], 0, 0⟩,
              .err (.valueError "`section` cannot be empty.")) := by
  decide

/-- C8, amended: for every NON-EMPTY section name absent from the Section
Provider, `has_section` returns false without propagating the
section-not-found failure; the name is marked checked with no resolved data,
a repeated `has_section` is a pure lookup returning false on the unchanged
state, and `get` on that section then fails with the missing-section
condition. -/
theorem C8_missing_section (fuel : Nat) (cfg : Config) (st : ParsedState)
    (sect : String)
    (h0 : 1 ≤ fuel) (h1 : sect ≠ "") (h2 : cfg.lookup sect = none)
    (h3 : sect ∉ st.sections_checked) (h4 : lookupAssoc st.data sect = none) :
    has_section fuel cfg st sect
      = some ({ st with
                sections_checked := addToSet st.sections_checked sect,
                providerCalls := st.providerCalls + 1 }, .ok false)
    ∧ sect ∈ addToSet st.sections_checked sect
    ∧ has_section fuel cfg
        { st with
          sections_checked := addToSet st.sections_checked sect,
          providerCalls := st.providerCalls + 1 } sect
      = some ({ st with
                sections_checked := addToSet st.sections_checked sect,
                providerCalls := st.providerCalls + 1 }, .ok false)
    ∧ (∀ opt, CPE.get fuel cfg
        { st with
          sections_checked := addToSet st.sections_checked sect,
          providerCalls := st.providerCalls + 1 } sect opt
      = some ({ st with
                sections_checked := addToSet st.sections_checked sect,
                providerCalls := st.providerCalls + 1 },
              .err (.keyError ("Missing section " ++ sect ++ ".")))) := by
  have hpo := parse_owner_section_missing fuel cfg st sect h0 h1 h2
  have hkey : hasKey st.data sect = false := by simp [hasKey, h4]
  have hmem' : sect ∈ addToSet st.sections_checked sect := mem_addToSet_self _ _
  have hfirst : has_section fuel cfg st sect
      = some ({ st with
                sections_checked := addToSet st.sections_checked sect,
                providerCalls := st.providerCalls + 1 }, .ok false) := by
    unfold has_section has_section_g
    rw [if_neg h3, hpo]
    dsimp only [pbindCatchKE]
    rw [hkey]
  have hthird : has_section fuel cfg
      { st with
        sections_checked := addToSet st.sections_checked sect,
        providerCalls := st.providerCalls + 1 } sect
      = some ({ st with
                sections_checked := addToSet st.sections_checked sect,
                providerCalls := st.providerCalls + 1 }, .ok false) := by
    unfold has_section
    rw [has_section_g_checked _ _ sect (by exact hmem')]
    dsimp only
    rw [hkey]
  refine ⟨hfirst, hmem', hthird, ?_⟩
  intro opt
  unfold CPE.get
  rw [if_pos (by exact hmem')]
  dsimp only [pbind]
  rw [hthird]
  dsimp only [pbind]
  rw [if_neg (by decide : ¬ (false = true))]

/-- C8, witness for the amended theorem at a concrete config and name. -/
theorem C8_witness :
    has_section 1 cfg_c8 initState "NOSUCH"
      = some (⟨[], ["NOSUCH"], [], 1, 0⟩, .ok false)
    ∧ "NOSUCH" ∈ addToSet ([] : List String) "NOSUCH"
    ∧ has_section 1 cfg_c8 ⟨[], ["NOSUCH"], [], 1, 0⟩ "NOSUCH"
      = some (⟨[], ["NOSUCH"], [], 1, 0⟩, .ok false)
    ∧ CPE.get 1 cfg_c8 ⟨[], ["NOSUCH"], [], 1, 0⟩ "NOSUCH" "k"
      = some (⟨[], ["NOSUCH"], [], 1, 0⟩,
              .err (.keyError "Missing section NOSUCH.")) := by
  have h := C8_missing_section 1 cfg_c8 initState "NOSUCH"
    (by decide) (by decide) (by decide) (by decide) (by decide)
  exact ⟨h.1, h.2.1, h.2.2.1, h.2.2.2 "k"⟩

/-- C9: tokenizing `envvar-prepend PATH extra-suffix` yields
`op1 = envvar_prepend` (dashes normalized) and `op2 = PATH`, the trailing
text being discarded; and a section containing this key resolves without
any error. -/
theorem C9_suffix_discarded :
    ((regex_op_matcher "envvar-prepend PATH extra-suffix").map
      (fun m => (get_op1_from_regex_match m, get_op2_from_regex_match m)))
      = some ("envvar_prepend", some "PATH")
    ∧ (parse_configuration 10 cfg_c9 "A" initState).map (fun p => p.2)
      = some (.ok ()) :=
  ⟨by decide, by decide⟩

/-- C10, counterexample: for the empty section name — unknown to the
provider and never checked — `has_option` does propagate a failure, but it
is the usage `ValueError` from the resolver's empty-name check, not the
section-not-found `KeyError` the claim promises. -/
theorem C10_counterexample :
    has_option 5 cfg_c10 initState "" "k"
      = some (⟨[], [""], [], 0, 0⟩,
              .err (.valueError "`section` cannot be empty.")) := by
  decide

/-- C10, amended: `has_option` never swallows a missing section: for every
NON-EMPTY section name unknown to the provider and not yet checked it
propagates the section-not-found `KeyError` (the name still gets marked
checked); and for a section that was checked but never resolved (no cached
data) it raises the `KeyError` from the data-dictionary access instead of
returning false. -/
theorem C10_has_option_strict :
    (∀ (fuel : Nat) (cfg : Config) (st : ParsedState) (sect opt : String),
      1 ≤ fuel → sect ≠ "" → sect ∉ st.sections_checked →
      cfg.lookup sect = none →
      has_option fuel cfg st sect opt
        = some ({ st with
                  sections_checked := addToSet st.sections_checked sect,
                  providerCalls := st.providerCalls + 1 },
                .err (.keyError ("ERROR: No section named `" ++ sect ++
                  "` was found in the configuration file."))))
    ∧ (∀ (fuel : Nat) (cfg : Config) (st : ParsedState) (sect opt : String),
      sect ∈ st.sections_checked → lookupAssoc st.data sect = none →
      has_option fuel cfg st sect opt = some (st, .err (.keyError sect))) := by
  constructor
  · intro fuel cfg st sect opt h0 h1 h3 h2
    unfold has_option
    rw [if_neg h3, parse_owner_section_missing fuel cfg st sect h0 h1 h2]
    rfl
  · intro fuel cfg st sect opt hm h4
    unfold has_option
    rw [if_pos hm]
    dsimp only [pbind]
    rw [h4]

/-- C10, witness for the amended theorem at concrete inputs. -/
theorem C10_witness :
    has_option 1 cfg_c10 initState "NOSUCH" "k"
      = some (⟨[], ["NOSUCH"], [], 1, 0⟩,
              .err (.keyError
                "ERROR: No section named `NOSUCH` was found in the configuration file."))
    ∧ has_option 1 cfg_c10 ⟨[], ["GHOST"], [], 1, 0⟩ "GHOST" "k"
      = some (⟨[], ["GHOST"], [], 1, 0⟩, .err (.keyError "GHOST")) :=
  ⟨C10_has_option_strict.1 1 cfg_c10 initState "NOSUCH" "k"
    (by decide) (by decide) (by decide) (by decide),
   C10_has_option_strict.2 1 cfg_c10 ⟨[], ["GHOST"], [], 1, 0⟩ "GHOST" "k"
    (by decide) (by decide)⟩

end CPE
